import Mathlib

/-!
Verification development for the PDF query assistant (Streamlit app in
`abc_1.py` plus the HTML templates in `htmlTemplates.py`).

Texts are embedded as `List Char`.  Code present in the repository
(`get_pdf_text`, the controller logic in `main`, `handle_userinput`'s
render loop, the templates) is translated directly.  The behaviour of the
third-party components (the langchain `CharacterTextSplitter`, the FAISS
vector store, the retriever, and the `ConversationalRetrievalChain` with
its `ConversationBufferMemory`) is not part of the repository's sources,
so those parts are modelled from the specification; each such definition
says so in its doc comment.
-/

/-- A chat message as stored in the chain's memory: `type` is the role
string (`"human"` for user turns, `"ai"` for assistant turns, following
the message objects the source inspects via `message.type`), `content`
is the message text. -/
structure Message where
  type : String
  content : String
deriving DecidableEq

/-- Modelled from the spec: the Answer Engine Handle produced by
`get_conversational_chain` binds one index (the vector store's corpus of
chunks), one conversation history (the `ConversationBufferMemory`), and
the hosted-model configuration (`model_name`). -/
structure QAChain where
  index : List (List Char)
  history : List Message
  model_name : String
deriving DecidableEq

/-- The per-browser-session state of the controller: `qa_chain` is the
current Answer Engine Handle (or `none` before any successful
processing), `chat_history` is the transcript last copied out of the
chain by `handle_userinput` (both initialised in `main`). -/
structure SessionState where
  qa_chain : Option QAChain
  chat_history : List Message
deriving DecidableEq

/-- Pipeline stages of the "Process" action, recorded as an event trace
so that theorems can state which stages executed. -/
inductive Stage where
  | extract
  | chunk
  | index
  | buildChain
  | reportSuccess
  | reportFailure
deriving DecidableEq

/-- Outcome of one submission of the question form: the resulting session
state, the warning shown (if any), and whether the Answer Engine was
invoked. -/
structure SubmitResult where
  state : SessionState
  warning : Option String
  invoked : Bool
deriving DecidableEq

/-- Embeds `get_pdf_text` of `abc_1.py`: a document is the list of its
pages' extraction results (`none` models a page whose text extraction
fails or yields nothing, which the source maps to `""` via
`page.extract_text() or ""`); the source accumulates `text += ...` over
all pages of all documents, in order. -/
def get_pdf_text (pdf_docs : List (List (Option (List Char)))) : List Char :=
  pdf_docs.foldl (fun text pdf => pdf.foldl (fun t page => t ++ page.getD []) text) []

/-- The `chunk_size=1000` parameter of the `CharacterTextSplitter` in
`get_text_chunks`. -/
def chunk_size : Nat := 1000

/-- The `chunk_overlap=200` parameter of the `CharacterTextSplitter` in
`get_text_chunks`. -/
def chunk_overlap : Nat := 200

/-- Modelled from the spec: the largest cut position `j` with
`start < j < stop` such that the character just before `j` is the
separator, i.e. a chunk boundary lying right after a separator
occurrence inside the window; `none` when the window contains no
separator. -/
def lastSepCut (text : List Char) (sep : Char) (start : Nat) : Nat → Option Nat
  | 0 => none
  | s + 1 =>
    if start < s ∧ text.get? (s - 1) = some sep then some s
    else lastSepCut text sep start s

/-- Modelled from the spec: the chunk boundary for the chunk starting at
`start` is placed at the nearest preceding separator to the nominal cut
point `start + chunk_size` when one exists inside the window, else at
the exact nominal offset. -/
def cutPoint (text : List Char) (sep : Char) (start : Nat) : Nat :=
  match lastSepCut text sep start (start + chunk_size) with
  | some j => j
  | none => start + chunk_size

/-- Modelled from the spec: the next chunk starts `chunk_overlap`
characters before the previous cut (so consecutive chunks overlap by the
overlap amount); when the separator-adjusted cut is too close to `start`
for a full overlap, the next chunk starts at the cut itself. -/
def nextStart (text : List Char) (sep : Char) (start : Nat) : Nat :=
  if start + chunk_overlap < cutPoint text sep start then
    cutPoint text sep start - chunk_overlap
  else cutPoint text sep start

/-- Modelled from the spec: the chunking loop.  While more than
`chunk_size` characters remain, emit the window from `start` to the
separator-adjusted cut and continue at `nextStart`; the final chunk is
whatever remains (and may be shorter than `chunk_size`).  `fuel` is a
structural-recursion bound; `text.length + 1` is always sufficient
because `start` strictly increases. -/
def chunkFrom (text : List Char) (sep : Char) : Nat → Nat → List (List Char)
  | 0, _ => []
  | fuel + 1, start =>
    if text.length ≤ start + chunk_size then
      [(text.drop start).take chunk_size]
    else
      (text.drop start).take (cutPoint text sep start - start) ::
        chunkFrom text sep fuel (nextStart text sep start)

/-- Modelled from the spec (the `CharacterTextSplitter` configured in
`get_text_chunks` of `abc_1.py` with `separator="\n"`, `chunk_size=1000`,
`chunk_overlap=200`, `length_function=len`): empty input yields zero
chunks, otherwise the chunking loop runs from offset 0. -/
def get_text_chunks (text : List Char) : List (List Char) :=
  if text.isEmpty then [] else chunkFrom text '\n' (text.length + 1) 0

/-- Modelled from the spec: `get_vectorstore` of `abc_1.py` builds the
FAISS index over the chunks (the index is represented by its corpus, the
list of chunks; embeddings live behind the distance function supplied to
`retrieve`).  Building from an empty chunk sequence surfaces the
explicit "cannot build index from empty corpus" error instead of
producing a queryable-but-empty index. -/
def get_vectorstore (text_chunks : List (List Char)) : Except String (List (List Char)) :=
  if text_chunks.isEmpty then Except.error "cannot build index from empty corpus"
  else Except.ok text_chunks

/-- Modelled from the spec: the retriever ranks the corpus by ascending
distance to the query, ties broken by original chunk order, keeping the
original position of each chunk.  `dist` abstracts the embedding-space
distance. -/
def retrieveRanked (dist : List Char → List Char → Nat) (corpus : List (List Char))
    (query : List Char) (k : Nat) : List (Nat × List Char) :=
  (corpus.enum.mergeSort (fun x y =>
    decide (dist query x.2 < dist query y.2 ∨
      (dist query x.2 = dist query y.2 ∧ x.1 ≤ y.1)))).take k

/-- Modelled from the spec: `retrieve(query, k)` returns the up-to-`k`
best-ranked chunks. -/
def retrieve (dist : List Char → List Char → Nat) (corpus : List (List Char))
    (query : List Char) (k : Nat) : List (List Char) :=
  (retrieveRanked dist corpus query k).map Prod.snd

/-- The fixed retrieval depth of the default retriever
(`vectorstore.as_retriever()` in `get_conversational_chain`). -/
def retriever_k : Nat := 4

/-- Modelled from the spec: the prompt combines the retrieved context
chunks, the full prior conversation history, and the new question. -/
def buildPrompt (context : List (List Char)) (history : List Message)
    (question : String) : String :=
  String.join (context.map (fun c => c.asString)) ++
    String.join (history.map (fun m => m.content)) ++ question

/-- Embeds `get_conversational_chain` of `abc_1.py`: a fresh chain over
the given vector store, with a fresh (hence empty)
`ConversationBufferMemory` and the fixed `"gpt-3.5-turbo"` model. -/
def get_conversational_chain (vectorstore : List (List Char)) : QAChain :=
  { index := vectorstore, history := [], model_name := "gpt-3.5-turbo" }

/-- Modelled from the spec: `ask` on the conversational chain.  It
retrieves the top-`retriever_k` chunks, builds the prompt, and invokes
the hosted model (`llm`, which returns `none` on a generation failure).
On failure the chain — in particular its history — is returned
unchanged; on success the human question and then the assistant answer
are appended to the history. -/
def ask (dist : List Char → List Char → Nat) (llm : String → Option String)
    (chain : QAChain) (question : String) : Option String × QAChain :=
  let context := retrieve dist chain.index question.toList retriever_k
  match llm (buildPrompt context chain.history question) with
  | none => (none, chain)
  | some answer =>
    (some answer,
      { chain with history :=
          chain.history ++ [⟨"human", question⟩, ⟨"ai", answer⟩] })

/-- Embeds `handle_userinput` of `abc_1.py`: it calls the session's
chain on the question and copies the chain's history into
`st.session_state.chat_history`.  When the chain call raises (generation
failure) the assignment never executes, so the session state is
unchanged; the chain object itself is also unchanged in that case. -/
def handle_userinput (dist : List Char → List Char → Nat)
    (llm : String → Option String) (user_question : String)
    (st : SessionState) : SessionState :=
  match st.qa_chain with
  | none => st
  | some chain =>
    match ask dist llm chain user_question with
    | (none, _) => st
    | (some _, chain') =>
      { st with qa_chain := some chain', chat_history := chain'.history }

/-- The `{{MSG}}` placeholder of the HTML templates. -/
def msg_placeholder : String := "\x7b\x7bMSG\x7d\x7d"

/-- Embeds `bot_template` of `htmlTemplates.py`. -/
def bot_template : String :=
  "\n<div class=\"chat-message bot\">\n    <div class=\"avatar\">\n        <img src=\"https://img.freepik.com/free-vector/graident-ai-robot-vectorart_78370-4114.jpg?semt=ais_hybrid&w=740\">\n    </div>\n    <div class=\"message\">\x7b\x7bMSG\x7d\x7d</div>\n</div>\n"

/-- Embeds `user_template` of `htmlTemplates.py`. -/
def user_template : String :=
  "\n<div class=\"chat-message user\">\n    <div class=\"avatar\">\n        <img src=\"https://media.licdn.com/dms/image/v2/D4D03AQHuGGY88leagg/profile-displayphoto-shrink_400_400/B4DZR143PQHcAg-/0/1737144628588?e=1755129600&v=beta&t=FcqkrA2VKSgfpKrmAL6tJEow2gP8_znG-fhrdVfIb7A\">\n    </div>    \n    <div class=\"message\">\x7b\x7bMSG\x7d\x7d</div>\n</div>\n"

/-- Left-to-right replacement of every occurrence of `pat` by `repl`,
the semantics of the `str.replace` call the source applies to the
templates. -/
def replaceAll (pat repl : List Char) : List Char → List Char
  | [] => []
  | c :: rest =>
    if h : pat ≠ [] ∧ (c :: rest).take pat.length = pat then
      repl ++ replaceAll pat repl ((c :: rest).drop pat.length)
    else
      c :: replaceAll pat repl rest
termination_by s => s.length
decreasing_by
  · have hp : 0 < pat.length := List.length_pos.mpr h.1
    simp only [List.length_drop, List.length_cons]
    omega
  · simp only [List.length_cons]
    omega

/-- String wrapper for `replaceAll`. -/
def replaceAllStr (pat repl s : String) : String :=
  (replaceAll pat.toList repl.toList s.toList).asString

/-- Embeds the render loop of `handle_userinput` (`abc_1.py` lines
59–63): a message whose `type` is `"human"` is rendered with the user
template, any other message with the bot template, substituting the
message content for the `{{MSG}}` placeholder. -/
def renderMessage (m : Message) : String :=
  if m.type = "human" then replaceAllStr msg_placeholder m.content user_template
  else replaceAllStr msg_placeholder m.content bot_template

/-- The transcript is rendered by one `st.write` per history entry, in
history order. -/
def renderTranscript (history : List Message) : List String :=
  history.map renderMessage

/-- Embeds the sidebar "Process" branch of `main` (`abc_1.py` lines
78–90).  `pdf_docs and st.button("Process")` short-circuits on an empty
upload list (the button is not even rendered), so the pipeline runs only
when the upload list is non-empty and the button was clicked.  On an
index-build error the exception propagates (the UI host reports it) and
the assignments to session state never execute.  The returned trace
records which pipeline stages ran. -/
def main_process (pdf_docs : List (List (Option (List Char)))) (clicked : Bool)
    (st : SessionState) : SessionState × List Stage :=
  if pdf_docs ≠ [] ∧ clicked = true then
    let raw_text := get_pdf_text pdf_docs
    let text_chunks := get_text_chunks raw_text
    match get_vectorstore text_chunks with
    | Except.error _ =>
      (st, [Stage.extract, Stage.chunk, Stage.index, Stage.reportFailure])
    | Except.ok vectorstore =>
      ({ st with qa_chain := some (get_conversational_chain vectorstore) },
        [Stage.extract, Stage.chunk, Stage.index, Stage.buildChain,
          Stage.reportSuccess])
  else (st, [])

/-- The semantics of Python's `user_question.strip()`: the question's
characters with leading and trailing whitespace removed. -/
def stripWhitespace (user_question : String) : List Char :=
  ((user_question.toList.dropWhile Char.isWhitespace).reverse.dropWhile
    Char.isWhitespace).reverse

/-- Embeds the question-form branch of `main` (`abc_1.py` lines 92–102):
on submit, if a chain is present (Python truthiness of
`st.session_state.qa_chain`) and the stripped question is non-empty
(Python truthiness of `user_question.strip()`), the engine is invoked
via `handle_userinput`; otherwise, an empty stripped question yields the
"valid question" warning and a missing chain yields the "process a
document first" warning, without invoking the engine. -/
def main_submit (dist : List Char → List Char → Nat)
    (llm : String → Option String) (user_question : String)
    (submitted : Bool) (st : SessionState) : SubmitResult :=
  if submitted = true then
    if st.qa_chain.isSome ∧ stripWhitespace user_question ≠ [] then
      { state := handle_userinput dist llm user_question st,
        warning := none, invoked := true }
    else if stripWhitespace user_question = [] then
      { state := st, warning := some "Please enter a valid question.",
        invoked := false }
    else
      { state := st,
        warning := some "Please upload and process a document first.",
        invoked := false }
  else { state := st, warning := none, invoked := false }

/-- Removing the overlap: keep the first chunk whole and drop the first
`chunk_overlap` characters of every later chunk, then concatenate. -/
def removeOverlap : List (List Char) → List Char
  | [] => []
  | c :: rest => c ++ (rest.map (fun r => r.drop chunk_overlap)).flatten

/-! ## Chunker lemmas -/

theorem lastSepCut_bounds {text : List Char} {sep : Char} {start j : Nat} :
    ∀ {stop : Nat}, lastSepCut text sep start stop = some j → start < j ∧ j < stop := by
  intro stop
  induction stop with
  | zero => simp [lastSepCut]
  | succ s ih =>
    simp only [lastSepCut]
    split
    · rename_i hc
      intro hj
      obtain ⟨hc1, -⟩ := hc
      injection hj with hj2
      omega
    · intro hj
      have := ih hj
      exact ⟨this.1, Nat.lt_succ_of_lt this.2⟩

theorem lastSepCut_of_not_mem {text : List Char} {sep : Char} (h : sep ∉ text)
    (start : Nat) : ∀ stop, lastSepCut text sep start stop = none := by
  intro stop
  induction stop with
  | zero => rfl
  | succ s ih =>
    simp only [lastSepCut]
    split
    · rename_i hc
      exact absurd (List.get?_mem hc.2) h
    · exact ih

theorem cutPoint_gt {text : List Char} {sep : Char} (start : Nat) :
    start < cutPoint text sep start := by
  unfold cutPoint
  split
  · rename_i j hj
    exact (lastSepCut_bounds hj).1
  · have : chunk_size = 1000 := rfl
    omega

theorem cutPoint_le {text : List Char} {sep : Char} (start : Nat) :
    cutPoint text sep start ≤ start + chunk_size := by
  unfold cutPoint
  split
  · rename_i j hj
    exact Nat.le_of_lt (lastSepCut_bounds hj).2
  · exact Nat.le_refl _

theorem nextStart_gt {text : List Char} {sep : Char} (start : Nat) :
    start < nextStart text sep start := by
  unfold nextStart
  have h1 := @cutPoint_gt text sep start
  split <;> omega

theorem nextStart_le {text : List Char} {sep : Char} (start : Nat) :
    nextStart text sep start ≤ start + chunk_size := by
  unfold nextStart
  have h1 := @cutPoint_le text sep start
  split <;> omega

theorem cutPoint_no_sep {text : List Char} {sep : Char} (h : sep ∉ text)
    (start : Nat) : cutPoint text sep start = start + chunk_size := by
  unfold cutPoint
  rw [lastSepCut_of_not_mem h]

theorem nextStart_no_sep {text : List Char} {sep : Char} (h : sep ∉ text)
    (start : Nat) :
    nextStart text sep start = start + (chunk_size - chunk_overlap) := by
  unfold nextStart
  rw [cutPoint_no_sep h]
  have h1 : chunk_size = 1000 := rfl
  have h2 : chunk_overlap = 200 := rfl
  split <;> omega

theorem chunkFrom_mem_ne_nil {text : List Char} {sep : Char} :
    ∀ (fuel start : Nat), start < text.length →
      ∀ c ∈ chunkFrom text sep fuel start, c ≠ [] := by
  intro fuel
  induction fuel with
  | zero => intro start _ c hc; simp [chunkFrom] at hc
  | succ fuel ih =>
    intro start hstart c hc
    simp only [chunkFrom] at hc
    split at hc
    · rename_i hterm
      simp only [List.mem_singleton] at hc
      subst hc
      have h1 : chunk_size = 1000 := rfl
      simp only [ne_eq, ← List.length_pos, List.length_take, List.length_drop]
      omega
    · rename_i hterm
      rcases List.mem_cons.mp hc with hc | hc
      · subst hc
        have h1 := @cutPoint_gt text sep start
        simp only [ne_eq, ← List.length_pos, List.length_take, List.length_drop]
        omega
      · have h2 := @nextStart_le text sep start
        have h1 : chunk_size = 1000 := rfl
        exact ih (nextStart text sep start) (by omega) c hc

theorem chunkFrom_no_sep_succ {text : List Char} {sep : Char} (h : sep ∉ text)
    (fuel start : Nat) :
    chunkFrom text sep (fuel + 1) start =
      if text.length ≤ start + chunk_size then [(text.drop start).take chunk_size]
      else (text.drop start).take chunk_size ::
        chunkFrom text sep fuel (start + (chunk_size - chunk_overlap)) := by
  simp only [chunkFrom]
  split
  · rfl
  · rw [cutPoint_no_sep h, nextStart_no_sep h]
    congr 2
    omega

theorem chunkFrom_head_no_sep {text : List Char} {sep : Char} (h : sep ∉ text)
    (fuel start : Nat) :
    (chunkFrom text sep (fuel + 1) start).head? =
      some ((text.drop start).take chunk_size) := by
  rw [chunkFrom_no_sep_succ h]
  split <;> rfl

theorem chunkFrom_chain_no_sep {text : List Char} {sep : Char} (h : sep ∉ text) :
    ∀ (fuel start : Nat), text.length - start < fuel →
      List.Chain'
        (fun a b => a.length = chunk_size ∧
          b.take chunk_overlap = a.drop (a.length - chunk_overlap))
        (chunkFrom text sep fuel start) := by
  intro fuel
  induction fuel with
  | zero => omega
  | succ fuel ih =>
    intro start hfuel
    rw [chunkFrom_no_sep_succ h]
    have hcs : chunk_size = 1000 := rfl
    have hco : chunk_overlap = 200 := rfl
    split
    · exact List.chain'_singleton _
    · rename_i hterm
      push_neg at hterm
      rcases fuel with _ | fuel
      · omega
      apply List.chain'_cons'.mpr
      constructor
      · intro y hy
        rw [chunkFrom_head_no_sep h] at hy
        simp only [Option.mem_def, Option.some.injEq] at hy
        subst hy
        have hlen : ((text.drop start).take chunk_size).length = chunk_size := by
          simp only [List.length_take, List.length_drop]
          omega
        refine ⟨hlen, ?_⟩
        rw [hlen]
        rw [List.take_take, List.drop_take, List.drop_drop,
          show chunk_overlap ⊓ chunk_size = chunk_size - (chunk_size - chunk_overlap) by
            omega]
      · exact ih _ (by omega)

theorem chunkFrom_flatten_no_sep {text : List Char} {sep : Char} (h : sep ∉ text) :
    ∀ (fuel start : Nat), text.length - start < fuel →
      ((chunkFrom text sep fuel start).map (fun c => c.drop chunk_overlap)).flatten
        = text.drop (start + chunk_overlap) := by
  intro fuel
  induction fuel with
  | zero => omega
  | succ fuel ih =>
    intro start hfuel
    rw [chunkFrom_no_sep_succ h]
    have hcs : chunk_size = 1000 := rfl
    have hco : chunk_overlap = 200 := rfl
    split
    · rename_i hterm
      simp only [List.map_cons, List.map_nil, List.flatten_cons, List.flatten_nil,
        List.append_nil]
      rw [List.take_of_length_le (by simp only [List.length_drop]; omega),
        List.drop_drop]
    · rename_i hterm
      push_neg at hterm
      simp only [List.map_cons, List.flatten_cons]
      rw [ih _ (by omega)]
      rw [List.drop_take, List.drop_drop]
      have base :=
        List.take_append_drop (chunk_size - chunk_overlap)
          (text.drop (start + chunk_overlap))
      rw [List.drop_drop] at base
      rw [show start + (chunk_size - chunk_overlap) + chunk_overlap
          = start + chunk_overlap + (chunk_size - chunk_overlap) by omega]
      exact base

theorem chunkFrom_succ_ne_nil {text : List Char} {sep : Char} (fuel start : Nat) :
    chunkFrom text sep (fuel + 1) start ≠ [] := by
  simp only [chunkFrom]
  split <;> simp

theorem get_text_chunks_ne_nil {text : List Char} (h : text ≠ []) :
    get_text_chunks text ≠ [] := by
  unfold get_text_chunks
  rw [List.isEmpty_eq_false.mpr h]
  simpa using chunkFrom_succ_ne_nil text.length 0

/-- Claim C2: for every input of length greater than `chunk_size` in
which no separator occurs (so no separator adjustment applies anywhere),
every consecutive pair of chunks produced by the chunker overlaps by
exactly `chunk_overlap` characters (each non-final chunk has length
exactly `chunk_size`, and the next chunk's first `chunk_overlap`
characters equal the previous chunk's last `chunk_overlap` characters),
and re-concatenating the chunk sequence with the overlap removed
reconstructs the original input. -/
theorem chunker_overlap_roundtrip (text : List Char)
    (h1 : chunk_size < text.length) (h2 : '\n' ∉ text) :
    List.Chain'
      (fun a b => a.length = chunk_size ∧
        b.take chunk_overlap = a.drop (a.length - chunk_overlap))
      (get_text_chunks text) ∧
    removeOverlap (get_text_chunks text) = text := by
  have hcs : chunk_size = 1000 := rfl
  have hco : chunk_overlap = 200 := rfl
  have hne : text ≠ [] := by
    intro hnil
    rw [hnil] at h1
    simp [hcs] at h1
  have hunf : get_text_chunks text = chunkFrom text '\n' (text.length + 1) 0 := by
    unfold get_text_chunks
    rw [List.isEmpty_eq_false.mpr hne]
    simp
  constructor
  · rw [hunf]
    exact chunkFrom_chain_no_sep h2 (text.length + 1) 0 (by omega)
  · rw [hunf]
    rw [chunkFrom_no_sep_succ h2]
    rw [if_neg (by omega)]
    simp only [removeOverlap]
    rw [chunkFrom_flatten_no_sep h2 text.length (0 + (chunk_size - chunk_overlap))
      (by omega)]
    simp only [List.drop_zero, Nat.zero_add]
    rw [show chunk_size - chunk_overlap + chunk_overlap = chunk_size by omega]
    exact List.take_append_drop _ _

/-- Witness for C2 at the concrete input of 1001 copies of `'a'`. -/
theorem chunker_overlap_roundtrip_witness :
    chunk_size < (List.replicate 1001 'a').length ∧
    '\n' ∉ List.replicate 1001 'a' ∧
    (List.Chain'
      (fun a b => a.length = chunk_size ∧
        b.take chunk_overlap = a.drop (a.length - chunk_overlap))
      (get_text_chunks (List.replicate 1001 'a')) ∧
    removeOverlap (get_text_chunks (List.replicate 1001 'a'))
      = List.replicate 1001 'a') :=
  ⟨by rw [List.length_replicate]; decide,
   by simp only [List.mem_replicate]; decide,
   chunker_overlap_roundtrip (List.replicate 1001 'a')
     (by rw [List.length_replicate]; decide)
     (by simp only [List.mem_replicate]; decide)⟩

/-- Claim C3: the chunker returns exactly one chunk, equal to the input,
whenever the input is non-empty of length at most `chunk_size`; the
empty input yields zero chunks; and no chunk it ever produces is empty
unless the input is empty. -/
theorem chunker_single_chunk_no_empty (text : List Char) :
    (text = [] → get_text_chunks text = []) ∧
    (text ≠ [] → text.length ≤ chunk_size → get_text_chunks text = [text]) ∧
    (∀ c ∈ get_text_chunks text, c ≠ []) := by
  have hcs : chunk_size = 1000 := rfl
  refine ⟨?_, ?_, ?_⟩
  · intro hnil
    rw [hnil]
    rfl
  · intro hne hle
    unfold get_text_chunks
    rw [List.isEmpty_eq_false.mpr hne]
    simp only [if_false, Bool.false_eq_true]
    simp only [chunkFrom]
    rw [if_pos (by omega)]
    rw [List.drop_zero, List.take_of_length_le hle]
  · intro c hc
    by_cases hne : text = []
    · rw [hne] at hc
      simp [get_text_chunks] at hc
    · unfold get_text_chunks at hc
      rw [List.isEmpty_eq_false.mpr hne] at hc
      simp only [if_false, Bool.false_eq_true] at hc
      have hpos : 0 < text.length := List.length_pos.mpr hne
      exact chunkFrom_mem_ne_nil (text.length + 1) 0 hpos c hc

/-- Witness for C3 at the concrete inputs `"hi"` and `[]`. -/
theorem chunker_single_chunk_no_empty_witness :
    get_text_chunks ['h', 'i'] = [['h', 'i']] ∧
    get_text_chunks [] = [] ∧
    ∀ c ∈ get_text_chunks ['h', 'i'], c ≠ [] :=
  ⟨(chunker_single_chunk_no_empty ['h', 'i']).2.1 (by decide) (by decide),
   (chunker_single_chunk_no_empty []).1 rfl,
   (chunker_single_chunk_no_empty ['h', 'i']).2.2⟩

/-! ## Extractor lemmas -/

theorem pages_foldl_eq (pdf : List (Option (List Char))) :
    ∀ init : List Char,
      pdf.foldl (fun t page => t ++ page.getD []) init
        = init ++ (pdf.map (fun page => page.getD [])).flatten := by
  induction pdf with
  | nil => simp
  | cons p rest ih =>
    intro init
    simp only [List.foldl_cons, List.map_cons, List.flatten_cons]
    rw [ih, List.append_assoc]

theorem docs_foldl_eq (docs : List (List (Option (List Char)))) :
    ∀ init : List Char,
      docs.foldl (fun text pdf => pdf.foldl (fun t page => t ++ page.getD []) text) init
        = init ++
          (docs.map (fun pdf => (pdf.map (fun page => page.getD [])).flatten)).flatten := by
  induction docs with
  | nil => simp
  | cons pdf rest ih =>
    intro init
    simp only [List.foldl_cons, List.map_cons, List.flatten_cons]
    rw [ih, pages_foldl_eq, List.append_assoc]

/-- Claim C7: the extractor returns the concatenation of all page texts
across all documents, in upload order and page order, where a page whose
extraction fails or yields nothing (`none`) contributes the empty string;
the function is total, so a bad page never aborts the extraction. -/
theorem extractor_concatenates_in_order (pdf_docs : List (List (Option (List Char)))) :
    get_pdf_text pdf_docs
      = (pdf_docs.map (fun pdf => (pdf.map (fun page => page.getD [])).flatten)).flatten := by
  unfold get_pdf_text
  rw [docs_foldl_eq]
  simp

/-! ## Answer Engine lemmas -/

/-- Claim C1: a failed `ask` (the hosted-model call returns no answer)
returns the chain — hence the Conversation History — unchanged, with no
partial append; a successful `ask` appends exactly two entries to the
history: the human question and then the assistant answer, in that
order. -/
theorem ask_failure_preserves_success_appends_two
    (dist : List Char → List Char → Nat) (llm : String → Option String)
    (chain : QAChain) (question : String) :
    ((ask dist llm chain question).1 = none ∧
      (ask dist llm chain question).2 = chain) ∨
    (∃ answer, (ask dist llm chain question).1 = some answer ∧
      (ask dist llm chain question).2.history
        = chain.history ++ [⟨"human", question⟩, ⟨"ai", answer⟩]) := by
  cases h : llm (buildPrompt (retrieve dist chain.index question.toList retriever_k)
      chain.history question) with
  | none =>
    have h2 : llm (buildPrompt (retrieve dist chain.index question.data retriever_k)
        chain.history question) = none := h
    left
    simp [ask, h2]
  | some a =>
    have h2 : llm (buildPrompt (retrieve dist chain.index question.data retriever_k)
        chain.history question) = some a := h
    right
    exact ⟨a, by simp [ask, h2]⟩

/-! ## Retrieval lemmas -/

theorem ranked_mergeSort_pairwise (dist : List Char → List Char → Nat)
    (query : List Char) (l : List (Nat × List Char)) :
    List.Pairwise
      (fun x y => dist query x.2 < dist query y.2 ∨
        (dist query x.2 = dist query y.2 ∧ x.1 ≤ y.1))
      (l.mergeSort (fun x y =>
        decide (dist query x.2 < dist query y.2 ∨
          (dist query x.2 = dist query y.2 ∧ x.1 ≤ y.1)))) := by
  have h := @List.sorted_mergeSort (Nat × List Char)
    (fun x y => decide (dist query x.2 < dist query y.2 ∨
      (dist query x.2 = dist query y.2 ∧ x.1 ≤ y.1)))
    (by
      intro a b c hab hbc
      simp only [decide_eq_true_eq] at *
      omega)
    (by
      intro a b
      simp only [Bool.or_eq_true, decide_eq_true_eq]
      omega)
    l
  exact h.imp (fun hd => of_decide_eq_true hd)

/-- Claim C8: retrieval at the fixed depth `retriever_k = 4` returns at
most `retriever_k` chunks; every returned chunk belongs to the index's
corpus; the returned chunks are ordered by ascending distance (the
ranked list is furthermore strictly ordered by distance with ties broken
by ascending original position); and every ranked entry carries the
chunk found at its original position in the corpus. -/
theorem retrieve_topk_spec (dist : List Char → List Char → Nat)
    (corpus : List (List Char)) (query : List Char) :
    (retrieve dist corpus query retriever_k).length ≤ retriever_k ∧
    (∀ c ∈ retrieve dist corpus query retriever_k, c ∈ corpus) ∧
    List.Pairwise (fun a b => dist query a ≤ dist query b)
      (retrieve dist corpus query retriever_k) ∧
    List.Pairwise
      (fun x y => dist query x.2 < dist query y.2 ∨
        (dist query x.2 = dist query y.2 ∧ x.1 ≤ y.1))
      (retrieveRanked dist corpus query retriever_k) ∧
    (∀ p ∈ retrieveRanked dist corpus query retriever_k,
      corpus.get? p.1 = some p.2) := by
  have hpw : List.Pairwise
      (fun x y => dist query x.2 < dist query y.2 ∨
        (dist query x.2 = dist query y.2 ∧ x.1 ≤ y.1))
      (retrieveRanked dist corpus query retriever_k) :=
    List.Pairwise.sublist (List.take_sublist _ _)
      (ranked_mergeSort_pairwise dist query corpus.enum)
  have hmem : ∀ p ∈ retrieveRanked dist corpus query retriever_k, p ∈ corpus.enum := by
    intro p hp
    unfold retrieveRanked at hp
    exact ((List.mergeSort_perm _ _).mem_iff).mp (List.mem_of_mem_take hp)
  refine ⟨?_, ?_, ?_, hpw, ?_⟩
  · simp only [retrieve, retrieveRanked, List.length_map, List.length_take]
    exact Nat.min_le_left _ _
  · intro c hc
    simp only [retrieve, List.mem_map] at hc
    obtain ⟨p, hp, rfl⟩ := hc
    have h2 := hmem p hp
    have h3 := List.mem_map_of_mem Prod.snd h2
    rwa [List.enum_map_snd] at h3
  · exact List.Pairwise.map Prod.snd
      (by
        intro a b hab
        rcases hab with h | h
        · exact Nat.le_of_lt h
        · exact Nat.le_of_eq h.1)
      hpw
  · intro p hp
    obtain ⟨i, c⟩ := p
    have h2 := List.mem_enum (hmem ⟨i, c⟩ hp)
    rw [List.get?_eq_getElem?, List.getElem?_eq_getElem h2.1]
    exact congrArg some h2.2.symm

/-! ## Controller lemmas -/

/-- Claim C4: when chunking yields zero chunks, building the index fails
with the explicit "cannot build index from empty corpus" error rather
than producing a queryable-but-empty index, and the controller's process
action reports the failure (trace ends in `reportFailure`, no chain is
built, and the session state is left unchanged). -/
theorem empty_corpus_refused (pdf_docs : List (List (Option (List Char))))
    (clicked : Bool) (st : SessionState) (h1 : pdf_docs ≠ [])
    (h2 : clicked = true) (h3 : get_text_chunks (get_pdf_text pdf_docs) = []) :
    get_vectorstore (get_text_chunks (get_pdf_text pdf_docs))
      = Except.error "cannot build index from empty corpus" ∧
    main_process pdf_docs clicked st
      = (st, [Stage.extract, Stage.chunk, Stage.index, Stage.reportFailure]) := by
  constructor
  · rw [h3]
    rfl
  · simp [main_process, h1, h2, h3, get_vectorstore]

/-- Witness for C4 at a one-document upload whose single page yields no
text. -/
theorem empty_corpus_refused_witness :
    ([[(none : Option (List Char))]] ≠ ([] : List (List (Option (List Char))))) ∧
    get_text_chunks (get_pdf_text [[(none : Option (List Char))]]) = [] ∧
    (get_vectorstore (get_text_chunks (get_pdf_text [[(none : Option (List Char))]]))
        = Except.error "cannot build index from empty corpus" ∧
      main_process [[(none : Option (List Char))]] true ⟨none, []⟩
        = (⟨none, []⟩,
            [Stage.extract, Stage.chunk, Stage.index, Stage.reportFailure])) :=
  ⟨by simp, rfl, empty_corpus_refused _ _ _ (by simp) rfl rfl⟩

/-- Claim C5: submitting an empty or whitespace-only question never
invokes the Answer Engine and never mutates the session state (hence the
Conversation History); the user-visible warning emitted is the one
classifying the empty-question precondition failure. -/
theorem empty_question_warned (dist : List Char → List Char → Nat)
    (llm : String → Option String) (user_question : String)
    (submitted : Bool) (st : SessionState)
    (h1 : stripWhitespace user_question = []) (h2 : submitted = true) :
    main_submit dist llm user_question submitted st
      = { state := st, warning := some "Please enter a valid question.",
          invoked := false } := by
  simp [main_submit, h1, h2]

/-- Witness for C5 at the whitespace-only question `"  "`. -/
theorem empty_question_warned_witness :
    (stripWhitespace "  " = []) ∧
    main_submit (fun _ _ => 0) (fun _ => none) "  " true ⟨none, []⟩
      = { state := ⟨none, []⟩,
          warning := some "Please enter a valid question.",
          invoked := false } :=
  ⟨by decide, empty_question_warned _ _ _ _ _ (by decide) rfl⟩

/-- Claim C6: processing a new document set while a handle is present
replaces the handle with the freshly built chain over the new documents,
whose Conversation History is empty. -/
theorem reprocess_replaces_handle (pdf_docs : List (List (Option (List Char))))
    (clicked : Bool) (st : SessionState) (chain0 : QAChain)
    (h0 : st.qa_chain = some chain0) (h1 : pdf_docs ≠ [])
    (h2 : clicked = true) (h3 : get_text_chunks (get_pdf_text pdf_docs) ≠ []) :
    (main_process pdf_docs clicked st).1.qa_chain
      = some (get_conversational_chain (get_text_chunks (get_pdf_text pdf_docs))) ∧
    (get_conversational_chain (get_text_chunks (get_pdf_text pdf_docs))).history
      = [] := by
  constructor
  · simp [main_process, h1, h2, get_vectorstore, List.isEmpty_eq_false.mpr h3]
  · rfl

/-- Witness for C6: reprocessing the document `"hi"` over a session that
already holds a handle with a non-empty history. -/
theorem reprocess_replaces_handle_witness :
    (SessionState.mk (some ⟨[], [⟨"human", "x"⟩], "gpt-3.5-turbo"⟩) []).qa_chain
      = some ⟨[], [⟨"human", "x"⟩], "gpt-3.5-turbo"⟩ ∧
    ([[some ['h', 'i']]] ≠ ([] : List (List (Option (List Char))))) ∧
    get_text_chunks (get_pdf_text [[some ['h', 'i']]]) ≠ [] ∧
    ((main_process [[some ['h', 'i']]] true
        ⟨some ⟨[], [⟨"human", "x"⟩], "gpt-3.5-turbo"⟩, []⟩).1.qa_chain
      = some (get_conversational_chain
          (get_text_chunks (get_pdf_text [[some ['h', 'i']]]))) ∧
    (get_conversational_chain
        (get_text_chunks (get_pdf_text [[some ['h', 'i']]]))).history = []) := by
  have hne : get_text_chunks (get_pdf_text [[some ['h', 'i']]]) ≠ [] := by
    show get_text_chunks ['h', 'i'] ≠ []
    exact get_text_chunks_ne_nil (by simp)
  exact ⟨rfl, by simp, hne,
    reprocess_replaces_handle _ _ _ _ rfl (by simp) rfl hne⟩

/-- Claim C9: with an empty upload set the Process branch is never
entered (in the source, `pdf_docs and st.button(...)` short-circuits, so
the button is not even rendered): no pipeline stage executes and the
session state is unchanged. -/
theorem empty_upload_no_pipeline (pdf_docs : List (List (Option (List Char))))
    (clicked : Bool) (st : SessionState) (h : pdf_docs = []) :
    main_process pdf_docs clicked st = (st, []) := by
  subst h
  simp [main_process]

/-- Witness for C9 at the empty upload set. -/
theorem empty_upload_no_pipeline_witness :
    (([] : List (List (Option (List Char)))) = []) ∧
    main_process [] true ⟨some ⟨[], [], "gpt-3.5-turbo"⟩, [⟨"human", "x"⟩]⟩
      = (⟨some ⟨[], [], "gpt-3.5-turbo"⟩, [⟨"human", "x"⟩]⟩, []) :=
  ⟨rfl, empty_upload_no_pipeline [] true _ rfl⟩

/-- Claim C10: the transcript renders one entry per history message, in
history order; an entry whose role is `"human"` is rendered from the
user template and any other entry from the bot template, with the
`{{MSG}}` placeholder replaced by that entry's content. -/
theorem transcript_render_rule (history : List Message) (i : Nat)
    (h : i < history.length) :
    (renderTranscript history).length = history.length ∧
    (renderTranscript history).get? i
      = some (replaceAllStr msg_placeholder (history.get ⟨i, h⟩).content
          (if (history.get ⟨i, h⟩).type = "human" then user_template
            else bot_template)) := by
  constructor
  · simp [renderTranscript]
  · rw [renderTranscript, List.get?_map, List.get?_eq_get h]
    simp only [List.get_eq_getElem]
    by_cases htype : history[i].type = "human"
    · simp [renderMessage, htype]
    · simp [renderMessage, htype]

/-- Witness for C10 at a one-entry history holding a human message. -/
theorem transcript_render_rule_witness :
    (0 < ([⟨"human", "hello"⟩] : List Message).length) ∧
    (renderTranscript [⟨"human", "hello"⟩]).length = 1 ∧
    (renderTranscript [⟨"human", "hello"⟩]).get? 0
      = some (replaceAllStr msg_placeholder "hello" user_template) := by
  have h : 0 < ([⟨"human", "hello"⟩] : List Message).length := by simp
  refine ⟨h, ?_, ?_⟩
  · exact (transcript_render_rule [⟨"human", "hello"⟩] 0 h).1
  · have h2 := (transcript_render_rule [⟨"human", "hello"⟩] 0 h).2
    simpa using h2
